import Mathlib

/-!
Verification development for the neemata-bun runtime: a shallow embedding of
the client API (`ApiError`, `BaseClient.stream`), the `Application` lifecycle
(`stop`, `terminate`, `start`), and the `ApplicationServer` supervisor
(worker spawn/restart, graceful stop, task-runner pool), with theorems about
the lifecycle ordering, idempotence, crash restart, round-robin dispatch and
stream-id allocation.
-/

namespace Neemata

/-! ## ApiError (src/packages/common/lib/api.ts)

`class ApiError extends Error` with a `code`, an optional human message
passed to `super`, and optional `data`.  The ECMAScript `Error` constructor
installs an own, non-enumerable `message` data property on the instance
exactly when its argument is not `undefined`; an own data property shadows
a prototype accessor, so the class's `get message()` (which reads
`this.code + super.message`) only runs when no human message was passed —
`super.message` then being the empty `Error.prototype.message`. -/

structure ApiError (δ : Type) where
  code : String
  /-- the own `message` data property installed by `super(message)`:
  present exactly when a message argument was passed. -/
  ownMessage : Option String
  data : Option δ
deriving DecidableEq

/-- The `ApiError` constructor: `constructor(code, message?, data?)`;
`super(message)` installs the own `message` property only when `message`
is not `undefined`. -/
def ApiError.make {δ : Type} (code : String) (message : Option String)
    (data : Option δ) : ApiError δ :=
  ⟨code, message, data⟩

/-- Reading `this.message`: the own `message` data property, when present,
shadows the prototype getter and is returned as-is; otherwise the getter
`get message() { return this.code + super.message }` runs, with
`super.message` the empty `Error.prototype.message`. -/
def ApiError.message {δ : Type} (e : ApiError δ) : String :=
  match e.ownMessage with
  | some m => m
  | none => e.code ++ ""

/-- The client wire-error record `{code, message, data}`. -/
structure WireError (δ : Type) where
  code : String
  message : String
  data : Option δ
deriving DecidableEq

/-- Method `toJSON()`: `{ code: this.code, message: this.message, data: this.data }`. -/
def ApiError.toJSON {δ : Type} (e : ApiError δ) : WireError δ :=
  ⟨e.code, e.message, e.data⟩

/-! ## BaseClient.stream (src/packages/common/lib/api.ts)

`stream(source, metadata)` infers `metadata.size` for `Blob`/`ArrayBuffer`
sources when `!metadata.size`, throws for a `ReadableStream` without a size,
then allocates `const id = ++this.streams.streamId` and stores the new
`UpStream` in `this.streams.up`. -/

/-- The kind of source value passed to `stream()`. -/
inductive StreamSource
  | blob (size : Nat)
  | arrayBuffer (byteLength : Nat)
  | readableStream
deriving DecidableEq

/-- JS falsiness of `metadata.size` (`undefined` or `0`). -/
def sizeFalsy : Option Nat → Bool
  | none => true
  | some 0 => true
  | some _ => false

/-- The `streams` record of a `BaseClient`: the upstream map (id, size pairs
in insertion order) and the `streamId` counter. -/
structure ClientStreams where
  up : List (Nat × Option Nat)
  streamId : Nat
deriving DecidableEq

/-- A fresh client: empty upstream map, `streamId = 0`. -/
def ClientStreams.initial : ClientStreams := ⟨[], 0⟩

/-- Method `BaseClient.stream(source, metadata)`: size inference, the
`ReadableStream` guard, then id allocation and insertion into `up`.
Returns the updated `streams` record and the allocated id. -/
def BaseClient.stream (st : ClientStreams) (source : StreamSource)
    (msize : Option Nat) : Except String (ClientStreams × Nat) :=
  match (if sizeFalsy msize then
          match source with
          | .blob s => Except.ok (some s)
          | .arrayBuffer s => Except.ok (some s)
          | .readableStream =>
              Except.error "Size is required for ReadableStream"
        else Except.ok msize : Except String (Option Nat)) with
  | .error e => .error e
  | .ok size =>
      let id := st.streamId + 1
      .ok ({ up := st.up ++ [(id, size)], streamId := id }, id)

/-- One `stream()` call as a state transition: a thrown call leaves the
client's `streams` record untouched. -/
def BaseClient.streamStep (st : ClientStreams) (req : StreamSource × Option Nat) :
    ClientStreams :=
  match BaseClient.stream st req.1 req.2 with
  | .error _ => st
  | .ok (st', _) => st'

/-- The ids allocated by a sequence of `stream()` calls (failed calls
allocate nothing). -/
def BaseClient.allocIds (st : ClientStreams) :
    List (StreamSource × Option Nat) → List Nat
  | [] => []
  | r :: rs =>
      match BaseClient.stream st r.1 r.2 with
      | .error _ => BaseClient.allocIds st rs
      | .ok (st', id) => id :: BaseClient.allocIds st' rs

/-! ## Application lifecycle (src/packages/common/lib/api.ts)

`Application.start/stop/terminate` are straight-line async methods:

* `stop()`: `hooks.call(BeforeStop)` → (Api worker) each `transport.stop()`
  with a caught failure logged → `hooks.call(AfterStop)` → `terminate()`.
* `terminate()`: `hooks.call(BeforeTerminate, {reverse})` →
  `container.dispose()` → `registry.clear()` →
  `hooks.call(AfterTerminate, {reverse})`.
* `start()`: `initialize()` → `hooks.call(BeforeStart)` → (Api worker) each
  `transport.start()` with a caught failure logged → `hooks.call(AfterStart)`.

The `Registry`, `Hooks` and `Container` classes are not part of the sources
here; they are modelled from the spec where marked below. -/

/-- Lifecycle hook kinds used by the Application (`Hook.*`). -/
inductive HookKind
  | beforeInit
  | afterInit
  | beforeStart
  | afterStart
  | beforeStop
  | afterStop
  | beforeTerminate
  | afterTerminate
deriving DecidableEq

/-- A registered transport: its id and whether its `start()`/`stop()`
promises reject. -/
structure TransportH where
  tid : Nat
  startFails : Bool
  stopFails : Bool
deriving DecidableEq

/-- The state of an `Application` visible to the lifecycle methods:
the registry's hook bindings (in registration order) and commands, the
transports, the worker type, and the global container's resolution list
and disposed flag. -/
structure AppState where
  /-- registry hook bindings, in registration order. -/
  hookBindings : List (HookKind × Nat)
  /-- registry commands, as (namespace, name) tags. -/
  commands : List (Nat × Nat)
  transports : List TransportH
  /-- Whether `options.type === WorkerType.Api`. -/
  isApi : Bool
  /-- providers cached in the global container, in resolution order. -/
  containerProviders : List Nat
  containerDisposed : Bool
deriving DecidableEq

/-- Observable lifecycle events. -/
inductive Ev
  | hookRun (k : HookKind) (h : Nat)
  | transportStartOk (t : Nat)
  | transportStartFailLogged (t : Nat)
  | transportStopOk (t : Nat)
  | transportStopFailLogged (t : Nat)
  | disposed (p : Nat)
  | registryLoaded
  | containerLoaded
deriving DecidableEq

/-- The bindings registered for one hook kind, in registration order. -/
def hooksOf (s : AppState) (k : HookKind) : List Nat :=
  (s.hookBindings.filter (fun b => b.1 = k)).map (fun b => b.2)

/-- Modelled from the spec: `Hooks.call(kind, {concurrent: false, reverse})`
(the hook engine is not under src/) invokes the registered bindings
sequentially, in registration order, or in reverse registration order when
`reverse` is set; failures of `*Stop`/`*Terminate` hooks are logged and do
not abort the remainder. -/
def hookCall (s : AppState) (k : HookKind) (reverse : Bool) : List Ev :=
  (if reverse then (hooksOf s k).reverse else hooksOf s k).map (Ev.hookRun k)

/-- Modelled from the spec: `Container.dispose()` (the container is not under
src/) disposes the cached instances in reverse resolution order and is
idempotent: a second call disposes nothing. -/
def containerDispose (s : AppState) : AppState × List Ev :=
  if s.containerDisposed then (s, [])
  else ({ s with containerDisposed := true, containerProviders := [] },
        s.containerProviders.reverse.map Ev.disposed)

/-- Modelled from the spec: `Registry.clear()` (the registry is not under
src/) empties what the registry collects — modules, commands and hook
bindings — so that it may be re-populated afterwards. -/
def registryClear (s : AppState) : AppState :=
  { s with hookBindings := [], commands := [] }

namespace Application

/-- Method `Application.terminate()`, line for line:
`BeforeTerminate` hooks (reverse, sequential), `container.dispose()`,
`registry.clear()`, `AfterTerminate` hooks (reverse, sequential). -/
def terminate (s : AppState) : AppState × List Ev :=
  let e1 := hookCall s .beforeTerminate true
  let (s1, e2) := containerDispose s
  let s2 := registryClear s1
  let e3 := hookCall s2 .afterTerminate true
  (s2, e1 ++ e2 ++ e3)

/-- The transport-stop loop of `Application.stop()`: on an Api worker each
transport's `stop()` is awaited and a rejection is logged, never
propagated, so every transport is processed. -/
def stopTransports (s : AppState) : List Ev :=
  if s.isApi then
    s.transports.map (fun t =>
      if t.stopFails then Ev.transportStopFailLogged t.tid
      else Ev.transportStopOk t.tid)
  else []

/-- Method `Application.stop()`, line for line: `BeforeStop` hooks, the
transport-stop loop, `AfterStop` hooks, then `terminate()`. -/
def stop (s : AppState) : AppState × List Ev :=
  let e1 := hookCall s .beforeStop false
  let e2 := stopTransports s
  let e3 := hookCall s .afterStop false
  let (s', e4) := terminate s
  (s', e1 ++ e2 ++ e3 ++ e4)

/-- The `APP_COMMAND` namespace tag and the two essential commands
(`task`, `registry`) registered by `initializeEssential()`. -/
def appCommand : Nat := 0

/-- Method `Application.initialize()`: `BeforeInitialize` hooks,
`initializeEssential()` (registers the `task` and `registry` commands),
`registry.load()`, `container.load()`, `AfterInitialize` hooks. -/
def initializeApp (s : AppState) : AppState × List Ev :=
  let e1 := hookCall s .beforeInit false
  let s1 := { s with commands := s.commands ++ [(appCommand, 0), (appCommand, 1)] }
  let e2 := [Ev.registryLoaded, Ev.containerLoaded]
  let e3 := hookCall s1 .afterInit false
  (s1, e1 ++ e2 ++ e3)

/-- The transport-start loop of `Application.start()`: on an Api worker each
transport's `start()` is awaited and a rejection is logged, never
propagated. -/
def startTransports (s : AppState) : List Ev :=
  if s.isApi then
    s.transports.map (fun t =>
      if t.startFails then Ev.transportStartFailLogged t.tid
      else Ev.transportStartOk t.tid)
  else []

/-- Method `Application.start()`, line for line: `initialize()`, `BeforeStart`
hooks, the transport-start loop, `AfterStart` hooks.  There is no lifecycle
state field and no precondition check anywhere on this path. -/
def start (s : AppState) : AppState × List Ev :=
  let (s1, e1) := initializeApp s
  let e2 := hookCall s1 .beforeStart false
  let e3 := startTransports s1
  let e4 := hookCall s1 .afterStart false
  (s1, e1 ++ e2 ++ e3 ++ e4)

end Application

/-! ## Supervisor (src/packages/server/lib/server.ts)

`ApplicationServer` keeps `workers : Set<Worker>`, a `taskRunners :
Pool<Worker>` and a `exiting` flag.  `createWorker` forks a worker, binds
its handlers and adds it to `workers` (task workers also join the pool);
the `exit` handler removes the worker and, on a non-zero code while not
`exiting`, spawns a replacement with the same `(type, id, options)` and
posts `Start`; `stop()` sets `exiting`, posts `Stop` to each worker and
awaits its `exit` with no timeout. -/

/-- The `WorkerType` of a worker. -/
inductive WType
  | api
  | task
deriving DecidableEq

/-- A spawned worker handle: its unique `threadId` and the
`(type, id, options)` it was created with (`options` coded as a `Nat`). -/
structure WorkerH where
  tid : Nat
  wtype : WType
  wid : Nat
  opts : Nat
deriving DecidableEq

/-- Modelled from the spec: `Pool` (`@neematajs/application`, not under
src/) is the supervisor's task-runner pool; `next()` returns the members in
a stable cyclic (round-robin) order, and `remove` drops a member so it is
skipped afterwards. -/
structure Pool (α : Type) where
  items : List α
  ptr : Nat
deriving DecidableEq

namespace Pool

/-- The empty pool. -/
def empty {α : Type} : Pool α := ⟨[], 0⟩

/-- Method `Pool.add`: append a member. -/
def add {α : Type} (p : Pool α) (x : α) : Pool α :=
  { p with items := p.items ++ [x] }

/-- Method `Pool.remove`: drop a member. -/
def remove {α : Type} [DecidableEq α] (p : Pool α) (x : α) : Pool α :=
  { p with items := p.items.erase x }

/-- Method `Pool.next()`: round-robin selection.  `none` models the call awaiting
on an empty pool. -/
def next {α : Type} (p : Pool α) : Option (α × Pool α) :=
  if h : p.items.length = 0 then none
  else
    let i := p.ptr % p.items.length
    some (p.items.get ⟨i, Nat.mod_lt _ (Nat.pos_of_ne_zero h)⟩,
          { p with ptr := i + 1 })

/-- The member returned by the `k`-th of a run of `next()` calls. -/
def nextK {α : Type} (p : Pool α) : Nat → Option α
  | 0 => p.next.map (fun r => r.1)
  | k + 1 =>
      match p.next with
      | none => none
      | some (_, p') => p'.nextK k

end Pool

/-- Messages of the worker protocol that the supervisor sends. -/
inductive WMsg
  | start
  | stop
  | executeInvoke (payload : Nat)
deriving DecidableEq

/-- Actions the supervisor can take, as observable events.  `forceTerminate`
and `processExit` are actions the host API offers; whether the code ever
emits them is proved below. -/
inductive SAction
  | logFatal
  | logInfo
  | spawn (w : WorkerH)
  | postMsg (tid : Nat) (m : WMsg)
  | sawExit (tid : Nat)
  | forceTerminate (tid : Nat)
  | processExit (code : Nat)
deriving DecidableEq

/-- The supervisor state: the worker set (insertion order kept), the
task-runner pool, the `exiting` flag and a fresh-`threadId` counter. -/
structure ServerState where
  workers : List WorkerH
  taskRunners : Pool WorkerH
  exiting : Bool
  nextTid : Nat
deriving DecidableEq

namespace ApplicationServer

/-- Method `createWorker(type, id, options)`: fork a worker (fresh `threadId`),
bind handlers, add it to `workers`, and add task workers to the
task-runner pool.  Returns the new state, the worker and the actions. -/
def createWorker (st : ServerState) (type : WType) (id : Nat) (opts : Nat) :
    ServerState × WorkerH × List SAction :=
  let w : WorkerH := ⟨st.nextTid, type, id, opts⟩
  ({ st with
      nextTid := st.nextTid + 1
      workers := st.workers ++ [w]
      taskRunners :=
        if type = WType.task then st.taskRunners.add w else st.taskRunners },
   w, [SAction.spawn w])

/-- The worker `exit` handler bound in `createWorker`: delete the worker,
drop an exited task worker from the pool, and on `code !== 0` log fatally
and — unless `exiting` — spawn a replacement with the same
`(type, id, options)` and post it `Start`; on code `0` just log. -/
def onExit (st : ServerState) (w : WorkerH) (code : Nat) :
    ServerState × List SAction :=
  let st1 : ServerState :=
    { st with
        workers := st.workers.erase w
        taskRunners :=
          if w.wtype = WType.task ∧ w ∈ st.taskRunners.items then
            st.taskRunners.remove w
          else st.taskRunners }
  if code ≠ 0 then
    if st1.exiting then (st1, [SAction.logFatal])
    else
      let (st2, w', acts) := createWorker st1 w.wtype w.wid w.opts
      (st2, SAction.logFatal :: (acts ++ [SAction.postMsg w'.tid WMsg.start]))
  else (st1, [SAction.logInfo])

/-- The `ExecuteInvoke` handler bound on Api workers: select a task worker
with `taskRunners.next()` and forward the payload to it.  `none` models the
handler suspended awaiting a non-empty pool. -/
def onExecuteInvoke (st : ServerState) (payload : Nat) :
    Option (ServerState × SAction) :=
  match st.taskRunners.next with
  | none => none
  | some (w, p') =>
      some ({ st with taskRunners := p' },
            SAction.postMsg w.tid (WMsg.executeInvoke payload))

/-- The body of `stop()`'s loop over `workers`, given which workers would
ever exit after receiving `Stop`: post `Stop`, then await `exit`.  The
`Bool` result records whether the loop (and so `stop()`) ever completes;
a worker that never exits blocks the loop right after its `Stop` post. -/
def stopLoop (exits : Nat → Bool) : List WorkerH → List SAction × Bool
  | [] => ([], true)
  | w :: ws =>
      if exits w.tid then
        let r := stopLoop exits ws
        (SAction.postMsg w.tid WMsg.stop :: SAction.sawExit w.tid :: r.1, r.2)
      else ([SAction.postMsg w.tid WMsg.stop], false)

/-- Method `ApplicationServer.stop()`: set the exiting flag, then the await loop.  The
actions taken and whether the call ever completes. -/
def stop (st : ServerState) (exits : Nat → Bool) : List SAction × Bool :=
  stopLoop exits st.workers

/-- The `error` handler armed while awaiting a worker's `Ready` during
`start()`: `this.logger.fatal(err); this.stop()`. -/
def onErrorBeforeReady (st : ServerState) (exits : Nat → Bool) :
    List SAction × Bool :=
  let r := stop st exits
  (SAction.logFatal :: r.1, r.2)

end ApplicationServer

/-! ## Discriminators and concrete states used by the theorems below -/

/-- Is this event the run of an `AfterTerminate` hook binding? -/
def isAfterTerminateRun : Ev → Bool
  | .hookRun .afterTerminate _ => true
  | _ => false

/-- Is this action the spawn of a worker? -/
def SAction.isSpawn : SAction → Bool
  | .spawn _ => true
  | _ => false

/-- Is this action a forcible worker termination? -/
def SAction.isForceTerminate : SAction → Bool
  | .forceTerminate _ => true
  | _ => false

/-- Is this action an exit of the supervisor process? -/
def SAction.isProcessExit : SAction → Bool
  | .processExit _ => true
  | _ => false

/-- A concrete application: Api worker, two transports (the second failing
on `stop()`), hooks registered for every stop/terminate kind, two cached
providers. -/
def exApp : AppState :=
  { hookBindings := [(.beforeStop, 1), (.afterStop, 2), (.beforeTerminate, 3),
                     (.beforeTerminate, 4), (.afterTerminate, 7)]
    commands := []
    transports := [⟨10, false, false⟩, ⟨11, false, true⟩]
    isApi := true
    containerProviders := [20, 21]
    containerDisposed := false }

/-- A concrete task worker and a supervisor holding it. -/
def exW : WorkerH := ⟨1, .task, 0, 9⟩

/-- A supervisor with `exW` as its only worker and task runner. -/
def exSrv : ServerState :=
  { workers := [exW], taskRunners := ⟨[exW], 0⟩, exiting := false, nextTid := 5 }

/-- A supervisor with one worker that never exits on `Stop`. -/
def stuckSrv : ServerState :=
  { workers := [⟨3, .api, 0, 0⟩], taskRunners := Pool.empty,
    exiting := false, nextTid := 4 }

/-- A supervisor with two workers, both of which exit on `Stop`. -/
def exSrv6 : ServerState :=
  { workers := [⟨1, .api, 0, 0⟩, ⟨2, .task, 0, 0⟩],
    taskRunners := Pool.empty, exiting := false, nextTid := 3 }

/-- Two distinct task workers and a pool holding both, used for the
round-robin witness. -/
def exW1 : WorkerH := ⟨1, .task, 0, 0⟩

/-- Second task worker for the round-robin witness. -/
def exW2 : WorkerH := ⟨2, .task, 1, 0⟩

/-- A supervisor whose task-runner pool holds `exW1` and `exW2`. -/
def exSrv7 : ServerState :=
  { workers := [exW1, exW2], taskRunners := ⟨[exW1, exW2], 0⟩,
    exiting := false, nextTid := 3 }

/-- State `exSrv7` after one round-robin selection. -/
def exSrv7' : ServerState :=
  { exSrv7 with taskRunners := ⟨[exW1, exW2], 1⟩ }

/-- An environment in which every worker exits when posted `Stop`. -/
def allExit : Nat → Bool := fun _ => true

/-! ## Theorems -/

/-- C8: the code evaluated at the failing input
`new ApiError("ERR_CODE", "boom")`: the own `message` property installed by
the `Error` constructor shadows the prototype getter, so reading `message`
yields the raw human text `"boom"` — not the claimed concatenation
`"ERR_CODEboom"` — and `toJSON()` carries that raw text; only with no human
message does the getter run, and it then yields just the code. -/
theorem c8_apiError_shadowed_message :
    (ApiError.make "ERR_CODE" (some "boom") (none : Option Nat)).message
      = "boom"
    ∧ (ApiError.make "ERR_CODE" (some "boom") (none : Option Nat)).message
        ≠ "ERR_CODE" ++ "boom"
    ∧ (ApiError.make "ERR_CODE" (some "boom") (none : Option Nat)).toJSON
        = ⟨"ERR_CODE", "boom", none⟩
    ∧ (ApiError.make "ERR_CODE" none (none : Option Nat)).message
        = "ERR_CODE" := by
  refine ⟨rfl, by decide, rfl, rfl⟩

/-- C10: `stream()` with a `ReadableStream` source and no `metadata.size`
throws `Size is required for ReadableStream` and leaves the client's
`streams` record unchanged (no upstream added, counter not incremented);
for `Blob` and `ArrayBuffer` sources the size is inferred from the source
and the call succeeds, allocating `streamId + 1`. -/
theorem c10_stream_size_required (st : ClientStreams) (s : Nat) :
    BaseClient.stream st .readableStream none =
      .error "Size is required for ReadableStream"
    ∧ BaseClient.streamStep st (.readableStream, none) = st
    ∧ BaseClient.stream st (.blob s) none =
        .ok ({ up := st.up ++ [(st.streamId + 1, some s)],
               streamId := st.streamId + 1 }, st.streamId + 1)
    ∧ BaseClient.stream st (.arrayBuffer s) none =
        .ok ({ up := st.up ++ [(st.streamId + 1, some s)],
               streamId := st.streamId + 1 }, st.streamId + 1) := by
  refine ⟨rfl, rfl, rfl, rfl⟩

/-- A successful `stream()` call allocates exactly `streamId + 1` and leaves
the counter at the allocated id. -/
theorem stream_ok_id {st st' : ClientStreams} {src : StreamSource}
    {m : Option Nat} {id : Nat}
    (h : BaseClient.stream st src m = Except.ok (st', id)) :
    id = st.streamId + 1 ∧ st'.streamId = st.streamId + 1 := by
  unfold BaseClient.stream at h
  cases hf : sizeFalsy m <;> cases src <;>
    simp [hf] at h <;> simp [← h.1, ← h.2]

/-- Every id allocated by a run of `stream()` calls exceeds the counter the
run started from. -/
theorem allocIds_gt (reqs : List (StreamSource × Option Nat)) :
    ∀ st : ClientStreams, ∀ i ∈ BaseClient.allocIds st reqs,
      st.streamId < i := by
  induction reqs with
  | nil => intro st i hi; simp [BaseClient.allocIds] at hi
  | cons r rs ih =>
    intro st i hi
    unfold BaseClient.allocIds at hi
    cases h : BaseClient.stream st r.1 r.2 with
    | error e => rw [h] at hi; exact ih st i hi
    | ok v =>
      obtain ⟨st', id⟩ := v
      rw [h] at hi
      obtain ⟨hid, hst⟩ := stream_ok_id h
      rcases List.mem_cons.mp hi with h1 | h1
      · omega
      · have := ih st' i h1; omega

/-- C9: over any sequence of `stream()` calls, the ids allocated by the
successful calls are strictly increasing — each call's id is strictly
greater than every id allocated before it — so no id is ever reused for two
different streams on the same client. -/
theorem c9_stream_ids_strictly_increasing (st : ClientStreams)
    (reqs : List (StreamSource × Option Nat)) :
    (BaseClient.allocIds st reqs).Pairwise (· < ·)
    ∧ (BaseClient.allocIds st reqs).Nodup := by
  have main : ∀ st : ClientStreams,
      (BaseClient.allocIds st reqs).Pairwise (· < ·) := by
    induction reqs with
    | nil => intro st; simp [BaseClient.allocIds]
    | cons r rs ih =>
      intro st
      unfold BaseClient.allocIds
      cases h : BaseClient.stream st r.1 r.2 with
      | error e => exact ih st
      | ok v =>
        obtain ⟨st', id⟩ := v
        refine List.pairwise_cons.mpr ⟨?_, ih st'⟩
        intro j hj
        obtain ⟨hid, hst⟩ := stream_ok_id h
        have := allocIds_gt rs st' j hj
        omega
  exact ⟨main st, (main st).imp (fun hab => Nat.ne_of_lt hab)⟩

/-- C2: `terminate()` is idempotent — after one `terminate()` the registry
holds no hook bindings and the container is disposed, so a second call
invokes no hook, disposes nothing, changes no registry state and leaves the
application state unchanged.  (The Registry/Container internals are
modelled from the spec.) -/
theorem c2_terminate_idempotent (s : AppState) :
    Application.terminate (Application.terminate s).1 =
      ((Application.terminate s).1, []) := by
  by_cases h : s.containerDisposed <;>
    simp [Application.terminate, containerDispose, registryClear, hookCall,
      hooksOf, h]

/-- C1 counterexample: on a concrete application with an `AfterTerminate`
hook (id 7) registered, `stop()` never runs that hook: `terminate()` calls
`registry.clear()` before the `AfterTerminate` phase, so the claim that
`terminate()` performs "the AfterTerminate hooks sequentially in reverse
registration order" fails — the registered AfterTerminate hook is not
invoked. -/
theorem c1_counterexample :
    (HookKind.afterTerminate, 7) ∈ exApp.hookBindings ∧
    (Application.stop exApp).2.all
      (fun e => !(isAfterTerminateRun e)) = true := by
  decide

/-- C1 (amended): `stop()` performs, in order, the `BeforeStop` hooks in
registration order, then (Api worker) each registered transport's `stop()`
in order with a failure logged and not propagated, then the `AfterStop`
hooks, then `terminate()`; `terminate()` performs the `BeforeTerminate`
hooks sequentially in reverse registration order, then `container.dispose()`
(instances in reverse resolution order), then `registry.clear()`, then the
`AfterTerminate` hook phase over the now-cleared registry — so no
previously registered `AfterTerminate` hook runs. -/
theorem c1_stop_terminate_order (s : AppState) :
    (Application.stop s).2 =
      (hooksOf s .beforeStop).map (Ev.hookRun .beforeStop)
      ++ Application.stopTransports s
      ++ (hooksOf s .afterStop).map (Ev.hookRun .afterStop)
      ++ (hooksOf s .beforeTerminate).reverse.map (Ev.hookRun .beforeTerminate)
      ++ (if s.containerDisposed then []
          else s.containerProviders.reverse.map Ev.disposed)
    ∧ (Application.stop s).1 =
        { hookBindings := []
          commands := []
          transports := s.transports
          isApi := s.isApi
          containerProviders :=
            if s.containerDisposed then s.containerProviders else []
          containerDisposed := true }
    ∧ (Application.stop s).2.all (fun e => !(isAfterTerminateRun e)) = true := by
  have htr : (Application.stop s).2 =
      (hooksOf s .beforeStop).map (Ev.hookRun .beforeStop)
      ++ Application.stopTransports s
      ++ (hooksOf s .afterStop).map (Ev.hookRun .afterStop)
      ++ (hooksOf s .beforeTerminate).reverse.map (Ev.hookRun .beforeTerminate)
      ++ (if s.containerDisposed then []
          else s.containerProviders.reverse.map Ev.disposed) := by
    by_cases h : s.containerDisposed <;>
      simp [Application.stop, Application.terminate, containerDispose,
        registryClear, hookCall, hooksOf, h, List.append_assoc]
  refine ⟨htr, ?_, ?_⟩
  · by_cases h : s.containerDisposed <;>
      simp [Application.stop, Application.terminate, containerDispose,
        registryClear, h]
  · rw [htr]
    refine List.all_eq_true.mpr ?_
    intro e he
    rcases List.mem_append.mp he with he | h1
    · rcases List.mem_append.mp he with he | h1
      · rcases List.mem_append.mp he with he | h1
        · rcases List.mem_append.mp he with h1 | h1
          · obtain ⟨b, -, rfl⟩ := List.mem_map.mp h1
            rfl
          · unfold Application.stopTransports at h1
            by_cases ha : s.isApi
            · simp only [ha, if_true] at h1
              obtain ⟨t, -, rfl⟩ := List.mem_map.mp h1
              by_cases hf : t.stopFails <;> simp [hf, isAfterTerminateRun]
            · simp [ha] at h1
        · obtain ⟨b, -, rfl⟩ := List.mem_map.mp h1
          rfl
      · obtain ⟨b, -, rfl⟩ := List.mem_map.mp h1
        rfl
    · by_cases h : s.containerDisposed
      · simp [h] at h1
      · simp only [h, if_false] at h1
        obtain ⟨p, -, rfl⟩ := List.mem_map.mp h1
        rfl

/-- C5 counterexample: `Application` tracks no lifecycle state and checks
no precondition.  On a concrete application, calling `start()` after
`stop()` has completed — a transition the claim says is rejected with
`InvalidState` without changing the state — instead proceeds: it mutates
the application state (re-registers the essential commands) and performs
observable work (`registry.load()`, `container.load()`). -/
theorem c5_counterexample :
    (Application.start (Application.stop exApp).1).1 ≠
      (Application.stop exApp).1 ∧
    (Application.start (Application.stop exApp).1).2 ≠ [] := by
  decide

/-- C5 (amended): no lifecycle precondition exists: from every state —
including any state reached after `stop()` — `start()` unconditionally
performs `initialize()` (`BeforeInitialize` hooks, essential-command
registration, `registry.load()`, `container.load()`, `AfterInitialize`
hooks), the `BeforeStart` hooks, the transport starts with failures logged,
and the `AfterStart` hooks; it never rejects with `InvalidState`. -/
theorem c5_start_unconditional (s : AppState) :
    (Application.start s).2 =
      (hooksOf s .beforeInit).map (Ev.hookRun .beforeInit)
      ++ [Ev.registryLoaded, Ev.containerLoaded]
      ++ (hooksOf s .afterInit).map (Ev.hookRun .afterInit)
      ++ (hooksOf s .beforeStart).map (Ev.hookRun .beforeStart)
      ++ Application.startTransports s
      ++ (hooksOf s .afterStart).map (Ev.hookRun .afterStart)
    ∧ (Application.start s).1 =
        { s with commands := s.commands
            ++ [(Application.appCommand, 0), (Application.appCommand, 1)] } := by
  constructor
  · simp [Application.start, Application.initializeApp, hookCall, hooksOf,
      Application.startTransports, List.append_assoc]
  · simp [Application.start, Application.initializeApp]

/-- C3: when a worker exits with a non-zero code while the supervisor is
not `exiting`, the `exit` handler logs fatally, spawns a replacement with
the same `(type, id, options)` (a fresh thread id) and posts it `Start`,
and the replacement is in the worker set; on a zero exit code it only logs,
and while `exiting` it never spawns. -/
theorem c3_crash_restart (st : ServerState) (w : WorkerH) (code : Nat) :
    (code ≠ 0 → st.exiting = false →
      (ApplicationServer.onExit st w code).2 =
        [SAction.logFatal, SAction.spawn ⟨st.nextTid, w.wtype, w.wid, w.opts⟩,
         SAction.postMsg st.nextTid WMsg.start]
      ∧ (⟨st.nextTid, w.wtype, w.wid, w.opts⟩ : WorkerH) ∈
          (ApplicationServer.onExit st w code).1.workers)
    ∧ (code = 0 → (ApplicationServer.onExit st w code).2 = [SAction.logInfo])
    ∧ (st.exiting = true →
        (ApplicationServer.onExit st w code).2.all
          (fun a => !(SAction.isSpawn a)) = true) := by
  refine ⟨?_, ?_, ?_⟩
  · intro hc hex
    simp [ApplicationServer.onExit, ApplicationServer.createWorker, hc, hex]
  · intro hc
    simp [ApplicationServer.onExit, hc]
  · intro hex
    by_cases hc : code = 0 <;>
      simp [ApplicationServer.onExit, hc, hex, SAction.isSpawn]

/-- C3 witness: the conclusions at the concrete supervisor `exSrv` holding
the task worker `exW`, for exit codes 1 and 0 and for the `exiting`
supervisor. -/
theorem c3_crash_restart_witness :
    ((ApplicationServer.onExit exSrv exW 1).2 =
        [SAction.logFatal, SAction.spawn ⟨5, WType.task, 0, 9⟩,
         SAction.postMsg 5 WMsg.start]
      ∧ (⟨5, WType.task, 0, 9⟩ : WorkerH) ∈
          (ApplicationServer.onExit exSrv exW 1).1.workers)
    ∧ (ApplicationServer.onExit exSrv exW 0).2 = [SAction.logInfo]
    ∧ (ApplicationServer.onExit { exSrv with exiting := true } exW 1).2.all
        (fun a => !(SAction.isSpawn a)) = true :=
  ⟨(c3_crash_restart exSrv exW 1).1 (by decide) (by decide),
   (c3_crash_restart exSrv exW 0).2.1 rfl,
   (c3_crash_restart { exSrv with exiting := true } exW 1).2.2 rfl⟩

/-- The `stop()` await loop: it completes exactly when every worker exits
on `Stop`; its actions are only `Stop` posts and observed exits (never a
forcible termination or a process exit); and when every worker exits the
actions are, per worker in order, the `Stop` post then the exit. -/
theorem stopLoop_spec (exits : Nat → Bool) (ws : List WorkerH) :
    ((ApplicationServer.stopLoop exits ws).2 = true ↔
        ∀ w ∈ ws, exits w.tid = true)
    ∧ (ApplicationServer.stopLoop exits ws).1.all
        (fun a => !(SAction.isForceTerminate a) && !(SAction.isProcessExit a))
        = true
    ∧ ((∀ w ∈ ws, exits w.tid = true) →
        (ApplicationServer.stopLoop exits ws).1 =
          ws.flatMap (fun w =>
            [SAction.postMsg w.tid WMsg.stop, SAction.sawExit w.tid])) := by
  induction ws with
  | nil => simp [ApplicationServer.stopLoop]
  | cons w ws ih =>
    by_cases he : exits w.tid
    · refine ⟨?_, ?_, ?_⟩
      · simpa [ApplicationServer.stopLoop, he] using ih.1
      · simpa [ApplicationServer.stopLoop, he, SAction.isForceTerminate,
          SAction.isProcessExit] using ih.2.1
      · intro hall
        have := ih.2.2 (fun w' hw' => hall w' (List.mem_cons_of_mem _ hw'))
        simp [ApplicationServer.stopLoop, he, this]
    · refine ⟨?_, ?_, ?_⟩
      · simp [ApplicationServer.stopLoop, he]
      · simp [ApplicationServer.stopLoop, he, SAction.isForceTerminate,
          SAction.isProcessExit]
      · intro hall
        exact absurd (hall w (List.mem_cons_self _ _)) he

/-- C4 counterexample: a concrete supervisor with one worker that never
exits on `Stop`.  `stop()` posts `Stop` and then waits unboundedly — the
call never completes — and no forcible termination is ever taken,
contradicting the claimed shutdown timeout. -/
theorem c4_counterexample :
    (ApplicationServer.stop stuckSrv (fun _ => false)).2 = false ∧
    (ApplicationServer.stop stuckSrv (fun _ => false)).1 =
      [SAction.postMsg 3 WMsg.stop] ∧
    (ApplicationServer.stop stuckSrv (fun _ => false)).1.all
      (fun a => !(SAction.isForceTerminate a)) = true := by
  decide

/-- C4 (amended): `stop()` posts `Stop` to each worker in order and awaits
its exit with no timeout: it completes exactly when every worker exits, it
never forcibly terminates a worker, and on completion its actions are
exactly the per-worker `Stop` post followed by the exit. -/
theorem c4_stop_no_timeout (st : ServerState) (exits : Nat → Bool) :
    ((ApplicationServer.stop st exits).2 = true ↔
        ∀ w ∈ st.workers, exits w.tid = true)
    ∧ (ApplicationServer.stop st exits).1.all
        (fun a => !(SAction.isForceTerminate a)) = true
    ∧ ((∀ w ∈ st.workers, exits w.tid = true) →
        (ApplicationServer.stop st exits).1 =
          st.workers.flatMap (fun w =>
            [SAction.postMsg w.tid WMsg.stop, SAction.sawExit w.tid])) := by
  obtain ⟨h1, h2, h3⟩ := stopLoop_spec exits st.workers
  refine ⟨h1, ?_, h3⟩
  rw [List.all_eq_true] at h2 ⊢
  intro a ha
  have := h2 a ha
  rw [Bool.and_eq_true] at this
  exact this.1

/-- C4 witness: on the concrete two-worker supervisor where every worker
exits, `stop()` completes and takes exactly the per-worker `Stop` post and
exit. -/
theorem c4_stop_no_timeout_witness :
    (ApplicationServer.stop exSrv6 allExit).2 = true ∧
    (ApplicationServer.stop exSrv6 allExit).1 =
      exSrv6.workers.flatMap (fun w =>
        [SAction.postMsg w.tid WMsg.stop, SAction.sawExit w.tid]) :=
  ⟨(c4_stop_no_timeout exSrv6 allExit).1.mpr (by decide),
   (c4_stop_no_timeout exSrv6 allExit).2.2 (by decide)⟩

/-- C6 counterexample: on a concrete supervisor with two started workers
(both of which exit on `Stop`), the `error`-before-`Ready` handler logs
fatally and posts `Stop` to each worker, but takes no process-exit action —
the supervisor process does not exit with a non-zero code, contradicting
the claim. -/
theorem c6_counterexample :
    (ApplicationServer.onErrorBeforeReady exSrv6 allExit).1 =
      [SAction.logFatal,
       SAction.postMsg 1 WMsg.stop, SAction.sawExit 1,
       SAction.postMsg 2 WMsg.stop, SAction.sawExit 2] ∧
    (ApplicationServer.onErrorBeforeReady exSrv6 allExit).1.all
      (fun a => !(SAction.isProcessExit a)) = true := by
  decide

/-- C6 (amended): a worker error before `Ready` makes the supervisor log
the error fatally and call `stop()` — posting `Stop` to every worker (all of
them, when every worker exits on `Stop`) — but the supervisor process never
exits: no process-exit action is taken. -/
theorem c6_error_before_ready (st : ServerState) (exits : Nat → Bool) :
    (ApplicationServer.onErrorBeforeReady st exits).1 =
      SAction.logFatal :: (ApplicationServer.stop st exits).1
    ∧ (ApplicationServer.onErrorBeforeReady st exits).1.all
        (fun a => !(SAction.isProcessExit a)) = true
    ∧ ((∀ w ∈ st.workers, exits w.tid = true) →
        ∀ w ∈ st.workers,
          SAction.postMsg w.tid WMsg.stop ∈
            (ApplicationServer.onErrorBeforeReady st exits).1) := by
  obtain ⟨h1, h2, h3⟩ := stopLoop_spec exits st.workers
  refine ⟨rfl, ?_, ?_⟩
  · rw [List.all_eq_true] at h2 ⊢
    intro a ha
    rcases List.mem_cons.mp ha with rfl | ha
    · rfl
    · have := h2 a ha
      rw [Bool.and_eq_true] at this
      exact this.2
  · intro hall w hw
    refine List.mem_cons_of_mem _ ?_
    show SAction.postMsg w.tid WMsg.stop ∈ (ApplicationServer.stopLoop exits st.workers).1
    rw [h3 hall]
    rw [List.mem_flatMap]
    exact ⟨w, hw, by simp⟩

/-- C6 witness: the conclusions at the concrete two-worker supervisor where
every worker exits on `Stop`. -/
theorem c6_error_before_ready_witness :
    (ApplicationServer.onErrorBeforeReady exSrv6 allExit).1 =
      SAction.logFatal :: (ApplicationServer.stop exSrv6 allExit).1
    ∧ (ApplicationServer.onErrorBeforeReady exSrv6 allExit).1.all
        (fun a => !(SAction.isProcessExit a)) = true
    ∧ SAction.postMsg 2 WMsg.stop ∈
        (ApplicationServer.onErrorBeforeReady exSrv6 allExit).1 :=
  ⟨(c6_error_before_ready exSrv6 allExit).1,
   (c6_error_before_ready exSrv6 allExit).2.1,
   (c6_error_before_ready exSrv6 allExit).2.2 (by decide)
     ⟨2, WType.task, 0, 0⟩ (by decide)⟩

/-- A successful `Pool.next()` returns a pool member. -/
theorem Pool.next_mem {α : Type} {p : Pool α} {w : α} {p' : Pool α}
    (h : p.next = some (w, p')) : w ∈ p.items := by
  unfold Pool.next at h
  by_cases hl : p.items.length = 0
  · simp [hl] at h
  · simp only [hl, dite_false, Option.some.injEq, Prod.mk.injEq] at h
    rw [← h.1]
    exact List.get_mem _ _ _

/-- A successful `Pool.next()` call keeps the member list and advances the cursor. -/
theorem Pool.next_state {α : Type} {p : Pool α} {w : α} {p' : Pool α}
    (h : p.next = some (w, p')) :
    p'.items = p.items ∧ p'.ptr = p.ptr % p.items.length + 1 := by
  unfold Pool.next at h
  by_cases hl : p.items.length = 0
  · simp [hl] at h
  · simp only [hl, dite_false, Option.some.injEq, Prod.mk.injEq] at h
    rw [← h.2]
    exact ⟨rfl, rfl⟩

/-- Round-robin: over a run of `next()` calls the `k`-th selection is the
member at index `(ptr + k) mod length` — a stable cyclic order. -/
theorem Pool.nextK_eq {α : Type} (k : Nat) :
    ∀ (p : Pool α), p.items ≠ [] →
      p.nextK k = p.items.get? ((p.ptr + k) % p.items.length) := by
  induction k with
  | zero =>
    intro p hne
    have hl : p.items.length ≠ 0 := fun h =>
      hne (List.length_eq_zero.mp h)
    unfold Pool.nextK Pool.next
    simp only [hl, dite_false, Option.map_some]
    rw [List.get?_eq_get (Nat.mod_lt _ (Nat.pos_of_ne_zero hl))]
    simp
  | succ k ih =>
    intro p hne
    have hl : p.items.length ≠ 0 := fun h =>
      hne (List.length_eq_zero.mp h)
    unfold Pool.nextK Pool.next
    simp only [hl, dite_false]
    rw [ih { p with ptr := p.ptr % p.items.length + 1 } hne]
    congr 1
    show (p.ptr % p.items.length + 1 + k) % p.items.length =
      (p.ptr + (k + 1)) % p.items.length
    rw [Nat.add_assoc, Nat.mod_add_mod, Nat.add_comm 1 k]

/-- A value outside the pool is never returned by any later `next()`. -/
theorem Pool.nextK_not_mem {α : Type} (k : Nat) :
    ∀ (p : Pool α) (w : α), w ∉ p.items → p.nextK k ≠ some w := by
  induction k with
  | zero =>
    intro p w hw h
    unfold Pool.nextK at h
    cases hn : p.next with
    | none =>
      rw [hn] at h
      exact Option.noConfusion h
    | some v =>
      obtain ⟨x, p'⟩ := v
      rw [hn] at h
      simp only [Option.map_some', Option.some.injEq] at h
      exact hw (h ▸ Pool.next_mem hn)
  | succ k ih =>
    intro p w hw h
    unfold Pool.nextK at h
    cases hn : p.next with
    | none =>
      rw [hn] at h
      exact Option.noConfusion h
    | some v =>
      obtain ⟨x, p'⟩ := v
      rw [hn] at h
      have hit : p'.items = p.items := (Pool.next_state hn).1
      exact ih p' w (by rw [hit]; exact hw) h

/-- C7: an `ExecuteInvoke` received from an Api worker is forwarded to the
task worker selected by the pool's `next()` (a pool member); `next()`
returns members in a stable cyclic round-robin order; and a worker removed
from the pool (as the exit handler does for an exited task worker) is never
selected afterwards.  (The `Pool` class is modelled from the spec.) -/
theorem c7_round_robin (st : ServerState) (payload : Nat)
    (st' : ServerState) (a : SAction) (p : Pool WorkerH) (w : WorkerH)
    (k : Nat) :
    (ApplicationServer.onExecuteInvoke st payload = some (st', a) →
      ∃ tw, st.taskRunners.next = some (tw, st'.taskRunners) ∧
        a = SAction.postMsg tw.tid (WMsg.executeInvoke payload) ∧
        tw ∈ st.taskRunners.items)
    ∧ (p.items ≠ [] →
        p.nextK k = p.items.get? ((p.ptr + k) % p.items.length))
    ∧ (p.items.Nodup → (p.remove w).nextK k ≠ some w) := by
  refine ⟨?_, fun h => Pool.nextK_eq k p h, fun h => ?_⟩
  · intro h
    unfold ApplicationServer.onExecuteInvoke at h
    cases hn : st.taskRunners.next with
    | none => rw [hn] at h; simp at h
    | some v =>
      obtain ⟨tw, p'⟩ := v
      rw [hn] at h
      simp only [Option.some.injEq, Prod.mk.injEq] at h
      obtain ⟨h1, h2⟩ := h
      subst h1
      subst h2
      exact ⟨tw, rfl, rfl, Pool.next_mem hn⟩
  · exact Pool.nextK_not_mem k (p.remove w) w h.not_mem_erase

/-- C7 witness: on the concrete pool `[exW1, exW2]` the handler forwards to
`exW1` (the round-robin head), the fourth selection cycles back to index
`(0 + 3) % 2`, and after removing `exW1` it is never selected. -/
theorem c7_round_robin_witness :
    (∃ tw, exSrv7.taskRunners.next = some (tw, exSrv7'.taskRunners) ∧
      SAction.postMsg 1 (WMsg.executeInvoke 9) =
        SAction.postMsg tw.tid (WMsg.executeInvoke 9) ∧
      tw ∈ exSrv7.taskRunners.items)
    ∧ ((⟨[exW1, exW2], 0⟩ : Pool WorkerH).nextK 3 =
        [exW1, exW2].get? ((0 + 3) % 2))
    ∧ ((⟨[exW1, exW2], 0⟩ : Pool WorkerH).remove exW1).nextK 2 ≠ some exW1 :=
  ⟨(c7_round_robin exSrv7 9 exSrv7'
      (SAction.postMsg 1 (WMsg.executeInvoke 9)) Pool.empty exW1 0).1
      (by decide),
   (c7_round_robin exSrv7 9 exSrv7'
      (SAction.postMsg 1 (WMsg.executeInvoke 9))
      ⟨[exW1, exW2], 0⟩ exW1 3).2.1 (by decide),
   (c7_round_robin exSrv7 9 exSrv7'
      (SAction.postMsg 1 (WMsg.executeInvoke 9))
      ⟨[exW1, exW2], 0⟩ exW1 2).2.2 (by decide)⟩

end Neemata
